/-
  Verification of the passbook pass-bundle builder.

  The repository ships its test suite (passbook/test/test_passbook.py) and
  packaging metadata; the implementation modules (passbook/models.py,
  passbook/smime_signature.py) are not present, so the data model, serializer,
  manifest builder and signer below are modelled from the specification
  (spec sections 3, 4.1-4.6, 7) and settled against that model.
-/
import Mathlib

namespace Passbook

/-! ### JSON values and deterministic rendering -/

/-- Modelled from the spec: JSON values produced by the serializer
(section 4.2); models.py is absent from the sources. -/
inductive Json where
  | str (s : String)
  | num (n : Nat)
  | bool (b : Bool)
  | arr (elems : List Json)
  | obj (entries : List (String × Json))

/-- JSON string escaping for one character. -/
def escChar (c : Char) : String :=
  if c = '"' then "\\\""
  else if c = '\\' then "\\\\"
  else if c = '\n' then "\\n"
  else String.singleton c

/-- Render a JSON string literal. -/
def renderString (s : String) : String :=
  "\"" ++ String.join (s.toList.map escChar) ++ "\""

mutual

/-- Modelled from the spec: deterministic JSON rendering (section 4.2,
byte-for-byte determinism with stable key ordering); models.py is absent. -/
def Json.render : Json → String
  | .str s => renderString s
  | .num n => toString n
  | .bool b => if b then "true" else "false"
  | .arr xs => "[" ++ renderElems xs ++ "]"
  | .obj es => "\x7b" ++ renderEntries es ++ "\x7d"

/-- Render the elements of a JSON array, comma separated. -/
def renderElems : List Json → String
  | [] => ""
  | [x] => x.render
  | x :: y :: rest => x.render ++ ", " ++ renderElems (y :: rest)

/-- Render the entries of a JSON object, comma separated. -/
def renderEntries : List (String × Json) → String
  | [] => ""
  | [(k, v)] => renderString k ++ ": " ++ v.render
  | (k, v) :: e :: rest => renderString k ++ ": " ++ v.render ++ ", " ++ renderEntries (e :: rest)

end

/-- Look a key up in a JSON object (`thawedJson['key']` in the tests). -/
def Json.get? : Json → String → Option Json
  | .obj entries, key => List.lookup key entries
  | _, _ => none

/-- Index into a JSON array (`thawedJson['barcodes'][0]` in the tests). -/
def Json.at? : Json → Nat → Option Json
  | .arr xs, i => xs.get? i
  | _, _ => none

/-- Extract a JSON string. -/
def jsonString? : Option Json → Option String
  | some (.str s) => some s
  | _ => none

/-- Extract a JSON number. -/
def jsonNum? : Option Json → Option Nat
  | some (.num n) => some n
  | _ => none

/-- Extract a JSON boolean. -/
def jsonBool? : Option Json → Option Bool
  | some (.bool b) => some b
  | _ => none

/-! ### UTF-8 bytes of the rendered JSON -/

/-- UTF-8 encoding of one code point. -/
def utf8Char (c : Nat) : List Nat :=
  if c < 128 then [c]
  else if c < 2048 then [192 + c / 64, 128 + c % 64]
  else if c < 65536 then [224 + c / 4096, 128 + c / 64 % 64, 128 + c % 64]
  else [240 + c / 262144, 128 + c / 4096 % 64, 128 + c / 64 % 64, 128 + c % 64]

/-- The byte sequence of a string (serialized output is bytes, section 4.2). -/
def utf8Bytes (s : String) : List Nat :=
  (s.toList.map (fun c => utf8Char c.toNat)).flatten

/-! ### SHA-1, the manifest digest

The manifest maps each file name to a lowercase hex digest (section 6);
the test suite pins the digest of a stored file to the 40-hex-character
value 170eed23019542b0a2890a0bf753effea0db181a, i.e. SHA-1. -/

/-- Truncate to 32 bits. -/
def w32 (n : Nat) : Nat := n % 4294967296

/-- Rotate a 32-bit word left by `s` (for `0 < s < 32`). -/
def rotl (s w : Nat) : Nat := ((w <<< s) % 4294967296) ||| (w >>> (32 - s))

/-- SHA-1 round function. -/
def sha1F (t b c d : Nat) : Nat :=
  if t < 20 then (b &&& c) ||| ((b ^^^ 4294967295) &&& d)
  else if t < 40 then b ^^^ c ^^^ d
  else if t < 60 then (b &&& c) ||| (b &&& d) ||| (c &&& d)
  else b ^^^ c ^^^ d

/-- SHA-1 round constants. -/
def sha1K (t : Nat) : Nat :=
  if t < 20 then 1518500249
  else if t < 40 then 1859775393
  else if t < 60 then 2400959708
  else 3395469782

/-- Extend the 16 block words to the 80-word schedule; the accumulator is
kept in reverse order (most recent word first). -/
def sha1SchedAux : Nat → List Nat → List Nat
  | 0, acc => acc
  | n + 1, acc =>
      let w := rotl 1 ((acc.getD 2 0) ^^^ (acc.getD 7 0) ^^^ (acc.getD 13 0) ^^^ (acc.getD 15 0))
      sha1SchedAux n (w :: acc)

/-- The 80-word message schedule of one block. -/
def sha1Sched (block : List Nat) : List Nat :=
  (sha1SchedAux 64 block.reverse).reverse

/-- SHA-1 working state. -/
structure Sha1State where
  a : Nat
  b : Nat
  c : Nat
  d : Nat
  e : Nat

/-- Run the 80 compression rounds over the schedule. -/
def sha1Rounds : Nat → List Nat → Sha1State → Sha1State
  | _, [], st => st
  | t, w :: ws, st =>
      let temp := w32 (rotl 5 st.a + sha1F t st.b st.c st.d + st.e + sha1K t + w)
      sha1Rounds (t + 1) ws ⟨temp, st.a, rotl 30 st.b, st.c, st.d⟩

/-- Compress one 16-word block into the chaining state. -/
def sha1Block (h : Sha1State) (block : List Nat) : Sha1State :=
  let st := sha1Rounds 0 (sha1Sched block) h
  ⟨w32 (h.a + st.a), w32 (h.b + st.b), w32 (h.c + st.c), w32 (h.d + st.d), w32 (h.e + st.e)⟩

/-- The message length in bits as eight big-endian bytes. -/
def beBytes8 (n : Nat) : List Nat :=
  [n >>> 56 % 256, n >>> 48 % 256, n >>> 40 % 256, n >>> 32 % 256,
   n >>> 24 % 256, n >>> 16 % 256, n >>> 8 % 256, n % 256]

/-- SHA-1 padding: append 0x80, zeros to 56 mod 64, then the bit length. -/
def sha1Pad (msg : List Nat) : List Nat :=
  msg ++ [128] ++ List.replicate ((119 - msg.length % 64) % 64) 0 ++ beBytes8 (msg.length * 8)

/-- Pack bytes into big-endian 32-bit words. -/
def bytesToWords : List Nat → List Nat
  | b0 :: b1 :: b2 :: b3 :: rest =>
      (b0 * 16777216 + b1 * 65536 + b2 * 256 + b3) :: bytesToWords rest
  | _ => []

/-- Split a word sequence into 16-word blocks. -/
def chunk16 : List Nat → List (List Nat)
  | w0 :: w1 :: w2 :: w3 :: w4 :: w5 :: w6 :: w7 ::
    w8 :: w9 :: w10 :: w11 :: w12 :: w13 :: w14 :: w15 :: rest =>
      [w0, w1, w2, w3, w4, w5, w6, w7, w8, w9, w10, w11, w12, w13, w14, w15] :: chunk16 rest
  | _ => []

/-- SHA-1 initial chaining values. -/
def sha1IV : Sha1State := ⟨1732584193, 4023233417, 2562383102, 271733878, 3285377520⟩

/-- The sixteen lowercase hexadecimal digits: codes 48-57 are the decimal
digits, codes 97-102 are the letters a-f. -/
def hexChars : List Char :=
  (List.range 16).map (fun n => Char.ofNat (if n < 10 then 48 + n else 87 + n))

/-- The lowercase hex digit of `n % 16`. -/
def hexDigit (n : Nat) : Char := hexChars.getD (n % 16) '0'

/-- The eight lowercase hex characters of a 32-bit word. -/
def hexWordChars (w : Nat) : List Char :=
  [hexDigit (w >>> 28), hexDigit (w >>> 24), hexDigit (w >>> 20), hexDigit (w >>> 16),
   hexDigit (w >>> 12), hexDigit (w >>> 8), hexDigit (w >>> 4), hexDigit w]

/-- The digest state as a 40-character lowercase hex string. -/
def sha1Finish (st : Sha1State) : String :=
  String.mk (hexWordChars st.a ++ hexWordChars st.b ++ hexWordChars st.c ++
             hexWordChars st.d ++ hexWordChars st.e)

/-- SHA-1 digest of a byte sequence, as lowercase hex. -/
def sha1Hex (msg : List Nat) : String :=
  sha1Finish ((chunk16 (bytesToWords (sha1Pad msg))).foldl sha1Block sha1IV)

/-! ### The pass data model

Modelled from the spec (section 3): models.py is absent from the sources,
so Barcode, BarcodeFormat, the content variants, Field and Pass follow the
spec text and the accesses made by test_passbook.py. -/

/-- Modelled from the spec: the fixed barcode format enumeration
\x7bQR, PDF417, Aztec, Code128\x7d (section 3, Barcode). -/
inductive BarcodeFormat where
  | pdf417
  | qr
  | aztec
  | code128
deriving DecidableEq

/-- The wire value of a barcode format tag. -/
def BarcodeFormat.value : BarcodeFormat → String
  | .pdf417 => "PKBarcodeFormatPDF417"
  | .qr => "PKBarcodeFormatQR"
  | .aztec => "PKBarcodeFormatAztec"
  | .code128 => "PKBarcodeFormatCode128"

/-- Modelled from the spec: Barcode is (message text, format tag,
alternate text) (section 3). -/
structure Barcode where
  message : String
  format : BarcodeFormat
  altText : String
deriving DecidableEq

/-- The legacy-supported barcode subset (section 3: formats outside it are
downgraded in the legacy single-barcode field). -/
def legacyFormats : List BarcodeFormat := [.pdf417, .qr, .aztec]

/-- Modelled from the spec: the downgraded legacy view of a barcode — the
original when its format is legacy-supported, otherwise a copy with the
fixed fallback format PDF417 (sections 3 and 9). -/
def legacyBarcode (b : Barcode) : Barcode :=
  if b.format ∈ legacyFormats then b else { b with format := .pdf417 }

/-- JSON form of one barcode. -/
def Barcode.json_dict (b : Barcode) : Json :=
  .obj [("altText", .str b.altText), ("format", .str b.format.value),
        ("message", .str b.message)]

/-- Modelled from the spec: a Field is a (key, value, label) triple
(section 3). -/
structure PassField where
  key : String
  value : String
  label : String
deriving DecidableEq

/-- JSON form of one field. -/
def PassField.json_dict (f : PassField) : Json :=
  .obj [("key", .str f.key), ("label", .str f.label), ("value", .str f.value)]

/-- Modelled from the spec: the closed set of content-variant layout kinds
(section 3, ContentVariant). -/
inductive VariantKind where
  | storeCard
  | boardingPass
  | coupon
  | eventTicket
  | generic
deriving DecidableEq

/-- The JSON key a content variant serializes under (section 9: variants
differ only in the key name). -/
def VariantKind.jsonKey : VariantKind → String
  | .storeCard => "storeCard"
  | .boardingPass => "boardingPass"
  | .coupon => "coupon"
  | .eventTicket => "eventTicket"
  | .generic => "generic"

/-- Modelled from the spec: a content variant owns ordered header, primary,
secondary, auxiliary and back field groups (sections 3 and 4.1). -/
structure PassInformation where
  kind : VariantKind
  headerFields : List PassField := []
  primaryFields : List PassField := []
  secondaryFields : List PassField := []
  auxiliaryFields : List PassField := []
  backFields : List PassField := []
deriving DecidableEq

/-- `StoreCard()` of the tests: an empty store-card variant. -/
def storeCard : PassInformation := { kind := .storeCard }

/-- Append-only field addition (section 4.1), header group. -/
def PassInformation.addHeaderField (info : PassInformation) (key value label : String) :
    PassInformation :=
  { info with headerFields := info.headerFields ++ [⟨key, value, label⟩] }

/-- Append-only field addition (section 4.1), primary group. -/
def PassInformation.addPrimaryField (info : PassInformation) (key value label : String) :
    PassInformation :=
  { info with primaryFields := info.primaryFields ++ [⟨key, value, label⟩] }

/-- Append-only field addition (section 4.1), secondary group. -/
def PassInformation.addSecondaryField (info : PassInformation) (key value label : String) :
    PassInformation :=
  { info with secondaryFields := info.secondaryFields ++ [⟨key, value, label⟩] }

/-- Append-only field addition (section 4.1), auxiliary group. -/
def PassInformation.addAuxiliaryField (info : PassInformation) (key value label : String) :
    PassInformation :=
  { info with auxiliaryFields := info.auxiliaryFields ++ [⟨key, value, label⟩] }

/-- Append-only field addition (section 4.1), back group. -/
def PassInformation.addBackField (info : PassInformation) (key value label : String) :
    PassInformation :=
  { info with backFields := info.backFields ++ [⟨key, value, label⟩] }

/-- A field group's JSON entry; empty groups are omitted. -/
def fieldsEntry (name : String) (fs : List PassField) : List (String × Json) :=
  match fs with
  | [] => []
  | _ => [(name, .arr (fs.map PassField.json_dict))]

/-- JSON form of the active content variant. -/
def PassInformation.json_dict (info : PassInformation) : Json :=
  .obj (fieldsEntry "headerFields" info.headerFields ++
        fieldsEntry "primaryFields" info.primaryFields ++
        fieldsEntry "secondaryFields" info.secondaryFields ++
        fieldsEntry "auxiliaryFields" info.auxiliaryFields ++
        fieldsEntry "backFields" info.backFields)

/-- Modelled from the spec: the Pass root entity (section 3) with the
in-memory asset store (`_files` in the tests) as a name-keyed association
list. -/
structure Pass where
  passInformation : PassInformation
  organizationName : String := ""
  passTypeIdentifier : String := ""
  teamIdentifier : String := ""
  serialNumber : String := ""
  description : String := ""
  formatVersion : Nat := 1
  suppressStripShine : Bool := false
  barcode : Option Barcode := none
  files : List (String × List Nat) := []
deriving DecidableEq

/-- Insert into a name-keyed association list with replace-on-duplicate
semantics (section 3, AssetEntry: file names are unique keys; later
additions with the same name replace the earlier entry). -/
def dictInsert (fs : List (String × List Nat)) (name : String) (content : List Nat) :
    List (String × List Nat) :=
  if fs.any (fun a => a.1 = name) then
    fs.map (fun a => if a.1 = name then (name, content) else a)
  else fs ++ [(name, content)]

/-- `addFile` of the tests / `addAsset` of the spec (section 4.3): the byte
source is fully materialized into the store at add-time. -/
def Pass.addFile (p : Pass) (name : String) (content : List Nat) : Pass :=
  { p with files := dictInsert p.files name content }

/-- `assetCount()` of the spec (section 4.3). -/
def Pass.assetCount (p : Pass) : Nat := p.files.length

/-- The legacy plus modern barcode JSON entries (section 4.2): the singular
"barcode" key carries the downgraded view, the "barcodes" array keeps the
original format, and both are present only when a barcode was set. -/
def barcodeEntries : Option Barcode → List (String × Json)
  | none => []
  | some b => [("barcode", (legacyBarcode b).json_dict),
               ("barcodes", .arr [b.json_dict])]

/-- Modelled from the spec: the serializer's JSON object (section 4.2) with
its fixed, stable key order. -/
def Pass.json_dict (p : Pass) : Json :=
  .obj ([("description", .str p.description),
         ("formatVersion", .num p.formatVersion),
         ("organizationName", .str p.organizationName),
         ("passTypeIdentifier", .str p.passTypeIdentifier),
         ("serialNumber", .str p.serialNumber),
         ("suppressStripShine", .bool p.suppressStripShine),
         ("teamIdentifier", .str p.teamIdentifier)] ++
        barcodeEntries p.barcode ++
        [(p.passInformation.kind.jsonKey, p.passInformation.json_dict)])

/-- The error taxonomy of section 7. -/
inductive PassbookError where
  | validationError (msg : String)
  | signingError (msg : String)
  | verificationError (msg : String)
deriving DecidableEq

/-- `_createPassJson` of the tests: the pass JSON text. -/
def Pass.createPassJson (p : Pass) : String := p.json_dict.render

/-- Modelled from the spec: `serialize` (sections 4.2 and 7) — required
fields (serial number, organization name, pass-type identifier, team
identifier) are checked here, at serialization time, never at construction
or mutation time, and a violation is a ValidationError. -/
def Pass.serialize (p : Pass) : Except PassbookError String :=
  if p.serialNumber = "" then .error (.validationError "serialNumber")
  else if p.organizationName = "" then .error (.validationError "organizationName")
  else if p.passTypeIdentifier = "" then .error (.validationError "passTypeIdentifier")
  else if p.teamIdentifier = "" then .error (.validationError "teamIdentifier")
  else .ok p.createPassJson

/-- Modelled from the spec: `buildManifest` (section 4.4) — the serialized
pass JSON hashed under the fixed name "pass.json", then one hash entry per
stored asset under its file name. -/
def buildManifest (passJson : String) (assets : List (String × List Nat)) :
    List (String × String) :=
  ("pass.json", sha1Hex (utf8Bytes passJson)) :: assets.map (fun a => (a.1, sha1Hex a.2))

/-- `_createManifest` of the tests: the manifest mapping rendered as JSON
text with the same determinism requirement as the pass JSON. -/
def Pass.createManifest (p : Pass) (passJson : String) : String :=
  (Json.obj ((buildManifest passJson p.files).map (fun e => (e.1, Json.str e.2)))).render

/-! ### The signer, modelled symbolically

Modelled from the spec: smime_signature.py is absent from the sources, and
the spec (sections 1, 4.5, 6) treats the cryptographic primitive as an
opaque collaborator whose contract is exactly: the detached signature binds
to the exact content byte sequence and to the signing credentials, signing
fails with SigningError on bad credentials, and verification is a clean
boolean except on structurally unparseable input. -/

/-- A certificate: its identity and the identity of its issuer. -/
structure Certificate where
  certId : String
  issuerId : String
deriving DecidableEq

/-- A password-protected private key belonging to one certificate. -/
structure PrivateKey where
  owner : String
  password : String
deriving DecidableEq

/-- A detached signature: bound to the signer, the completing intermediate,
and the exact content bytes. -/
structure SMimeSignature where
  signerId : String
  chainId : String
  content : List Nat
deriving DecidableEq

/-- Signature input as presented to the verifier: parsed, or structurally
unparseable. -/
inductive SignatureBlob where
  | parsed (sig : SMimeSignature)
  | malformed
deriving DecidableEq

/-- The two interchangeable signature serializations (section 6). -/
inductive SignatureFormat where
  | der
  | pem
deriving DecidableEq

/-- Modelled from the spec: `sign` (section 4.5) — fails with SigningError
when the certificate/key pair is invalid, the password is wrong, or the
intermediate certificate cannot complete the trust chain; otherwise the
signature binds the exact manifest bytes. -/
def smime_sign (manifest : List Nat) (certificate : Certificate) (key : PrivateKey)
    (wwdr : Certificate) (password : String) : Except PassbookError SMimeSignature :=
  if key.owner ≠ certificate.certId then .error (.signingError "certificate/key mismatch")
  else if key.password ≠ password then .error (.signingError "bad decrypt")
  else if wwdr.certId ≠ certificate.issuerId then .error (.signingError "broken chain")
  else .ok ⟨certificate.certId, wwdr.certId, manifest⟩

/-- Modelled from the spec: `verify` (sections 4.5 and 7) — a structurally
unparseable signature is a VerificationError; otherwise the result is a
clean boolean: true exactly when the signature binds these content bytes
(and, unless chain validation is skipped, chains to the given signer
certificate). -/
def smime_verify (signerCert : Certificate) (content : List Nat) (signature : SignatureBlob)
    (_format : SignatureFormat) (noverify : Bool) : Except PassbookError Bool :=
  match signature with
  | .malformed => .error (.verificationError "cannot parse signature")
  | .parsed sig =>
      if noverify then .ok (sig.content == content)
      else .ok (sig.content == content && sig.chainId == signerCert.certId)

/-! ### The shell pass of the test suite (`create_shell_pass`) -/

/-- The barcode of `create_shell_pass` (default Code128 format). -/
def shellBarcode : Barcode := ⟨"test barcode", .code128, "alternate text"⟩

/-- `create_shell_pass()` of the tests. -/
def shellPass : Pass :=
  { passInformation := storeCard.addPrimaryField "name" "Jähn Doe" "Name",
    organizationName := "Org Name",
    passTypeIdentifier := "Pass Type ID",
    teamIdentifier := "Team Identifier",
    serialNumber := "1234567",
    description := "A Sample Pass",
    barcode := some shellBarcode }

/-! ### Helper lemmas -/

/-- Every hex digit is one of the sixteen lowercase hex characters. -/
lemma hexDigit_mem (n : Nat) : hexDigit n ∈ hexChars := by
  have h : n % 16 < hexChars.length := by
    have := Nat.mod_lt n (show 0 < 16 by norm_num)
    simpa [hexChars] using this
  unfold hexDigit
  rw [List.getD_eq_getElem hexChars '0' h]
  exact List.getElem_mem h

/-- The hex rendering of a word uses only lowercase hex characters. -/
lemma hexWordChars_subset (w : Nat) : ∀ c ∈ hexWordChars w, c ∈ hexChars := by
  intro c hc
  simp only [hexWordChars, List.mem_cons, List.not_mem_nil, or_false] at hc
  rcases hc with h | h | h | h | h | h | h | h <;> exact h ▸ hexDigit_mem _

/-- A finished digest has exactly 40 characters. -/
lemma sha1Finish_length (st : Sha1State) : (sha1Finish st).length = 40 := rfl

/-- A finished digest uses only lowercase hex characters. -/
lemma sha1Finish_chars (st : Sha1State) : ∀ c ∈ (sha1Finish st).toList, c ∈ hexChars := by
  intro c hc
  have hc' : c ∈ hexWordChars st.a ++ hexWordChars st.b ++ hexWordChars st.c ++
      hexWordChars st.d ++ hexWordChars st.e := hc
  simp only [List.mem_append] at hc'
  rcases hc' with ((((h | h) | h) | h) | h) <;> exact hexWordChars_subset _ _ h

/-- A SHA-1 digest string has exactly 40 characters. -/
lemma sha1Hex_length (msg : List Nat) : (sha1Hex msg).length = 40 :=
  sha1Finish_length _

/-- A SHA-1 digest string uses only lowercase hex characters. -/
lemma sha1Hex_chars (msg : List Nat) : ∀ c ∈ (sha1Hex msg).toList, c ∈ hexChars :=
  sha1Finish_chars _

/-- Replacing a list element by a value different from the one stored there
changes the list. -/
lemma getD_set_self (l : List Nat) (i b : Nat) (hi : i < l.length) :
    (l.set i b).getD i 0 = b := by
  induction l generalizing i with
  | nil => simp at hi
  | cons x xs ih =>
      cases i with
      | zero => simp [List.getD]
      | succ n => simpa [List.getD] using ih n (by simpa using hi)

/-- Setting position `i` to a byte other than the stored one yields a
different list. -/
lemma set_ne_self (l : List Nat) (i b : Nat) (hi : i < l.length) (hb : b ≠ l.getD i 0) :
    l.set i b ≠ l := by
  intro hEq
  apply hb
  rw [← getD_set_self l i b hi, hEq]

/-! ### C1, C3, C4, C5, C9 -/

/-- C1: serialization is deterministic — two serialize calls on the same
unmodified Pass produce byte-identical JSON output. -/
theorem serialize_deterministic (p : Pass) (s₁ s₂ : String)
    (h₁ : p.serialize = .ok s₁) (h₂ : p.serialize = .ok s₂) :
    utf8Bytes s₁ = utf8Bytes s₂ ∧ s₁ = s₂ := by
  rw [h₁] at h₂
  injection h₂ with h
  subst h
  exact ⟨rfl, rfl⟩

/-- Witness for C1 at the shell pass of the test suite. -/
theorem serialize_deterministic_witness :
    shellPass.serialize = .ok shellPass.createPassJson ∧
    (utf8Bytes shellPass.createPassJson = utf8Bytes shellPass.createPassJson ∧
      shellPass.createPassJson = shellPass.createPassJson) :=
  ⟨rfl, serialize_deterministic shellPass _ _ rfl rfl⟩

/-- C3: the manifest holds exactly one "pass.json" entry for the serialized
JSON plus one entry per stored asset under its file name, so its entry count
is assetCount() + 1. -/
theorem buildManifest_count (p : Pass) (passJson : String) :
    (buildManifest passJson p.files).map Prod.fst = "pass.json" :: p.files.map Prod.fst ∧
    (buildManifest passJson p.files).length = p.assetCount + 1 := by
  constructor
  · simp [buildManifest]
  · simp [buildManifest, Pass.assetCount]

/-- C4: verification of a freshly produced signature over the same manifest
bytes, with chain validation skipped, returns true for any non-empty
manifest and a valid credential set. -/
theorem sign_verify_roundtrip (manifest : List Nat) (cert : Certificate) (key : PrivateKey)
    (wwdr : Certificate) (password : String) (fmt : SignatureFormat)
    (_hm : manifest ≠ []) (hkey : key.owner = cert.certId)
    (hpw : key.password = password) (hchain : wwdr.certId = cert.issuerId) :
    ∃ sig, smime_sign manifest cert key wwdr password = .ok sig ∧
      smime_verify cert manifest (.parsed sig) fmt true = .ok true := by
  refine ⟨⟨cert.certId, wwdr.certId, manifest⟩, ?_, ?_⟩
  · simp [smime_sign, hkey, hpw, hchain]
  · simp [smime_verify]

/-- Witness for C4 at a concrete valid credential set. -/
theorem sign_verify_roundtrip_witness :
    (([1] : List Nat) ≠ []) ∧
    (∃ sig, smime_sign [1] ⟨"signer", "wwdr"⟩ ⟨"signer", "pw"⟩ ⟨"wwdr", "apple"⟩ "pw" = .ok sig ∧
      smime_verify ⟨"signer", "wwdr"⟩ [1] (.parsed sig) .der true = .ok true) :=
  ⟨by decide,
   sign_verify_roundtrip [1] ⟨"signer", "wwdr"⟩ ⟨"signer", "pw"⟩ ⟨"wwdr", "apple"⟩ "pw" .der
     (by decide) rfl rfl rfl⟩

/-- C5: for a valid (content, signature) pair, verification over content
with one byte modified is a clean `ok false`, not an error. -/
theorem verify_tamper (cert : Certificate) (content : List Nat) (sig : SMimeSignature)
    (fmt : SignatureFormat) (i b : Nat)
    (hvalid : smime_verify cert content (.parsed sig) fmt true = .ok true)
    (hi : i < content.length) (hb : b ≠ content.getD i 0) :
    smime_verify cert (content.set i b) (.parsed sig) fmt true = .ok false := by
  have hc : sig.content = content := by
    simpa [smime_verify] using hvalid
  have hne : sig.content ≠ content.set i b := by
    rw [hc]
    exact fun hEq => set_ne_self content i b hi hb hEq.symm
  simp [smime_verify, hne]

/-- Witness for C5 at a concrete tampered byte. -/
theorem verify_tamper_witness :
    smime_verify ⟨"c", "w"⟩ [0, 1] (.parsed ⟨"x", "y", [0, 1]⟩) .der true = .ok true ∧
    (0 : Nat) < ([0, 1] : List Nat).length ∧
    (5 : Nat) ≠ ([0, 1] : List Nat).getD 0 0 ∧
    smime_verify ⟨"c", "w"⟩ (([0, 1] : List Nat).set 0 5) (.parsed ⟨"x", "y", [0, 1]⟩) .der true =
      .ok false :=
  ⟨rfl, by decide, by decide, verify_tamper ⟨"c", "w"⟩ [0, 1] ⟨"x", "y", [0, 1]⟩ .der 0 5 rfl
    (by decide) (by decide)⟩

/-- C9: missing required fields (serial number, organization name,
pass-type identifier, team identifier) are reported only at serialization
time as a ValidationError; serialization succeeds whenever all four are
non-empty. Construction and mutation are total operations of the model and
cannot fail. -/
theorem serialize_validation (p : Pass) :
    (p.serialNumber = "" ∨ p.organizationName = "" ∨ p.passTypeIdentifier = "" ∨
        p.teamIdentifier = "" → ∃ msg, p.serialize = .error (.validationError msg)) ∧
    (p.serialNumber ≠ "" → p.organizationName ≠ "" → p.passTypeIdentifier ≠ "" →
        p.teamIdentifier ≠ "" → p.serialize = .ok p.createPassJson) := by
  constructor
  · intro h
    by_cases h1 : p.serialNumber = ""
    · exact ⟨"serialNumber", by simp [Pass.serialize, h1]⟩
    · by_cases h2 : p.organizationName = ""
      · exact ⟨"organizationName", by simp [Pass.serialize, h1, h2]⟩
      · by_cases h3 : p.passTypeIdentifier = ""
        · exact ⟨"passTypeIdentifier", by simp [Pass.serialize, h1, h2, h3]⟩
        · by_cases h4 : p.teamIdentifier = ""
          · exact ⟨"teamIdentifier", by simp [Pass.serialize, h1, h2, h3, h4]⟩
          · tauto
  · intro h1 h2 h3 h4
    simp [Pass.serialize, h1, h2, h3, h4]

/-- Witness for C9: an empty serial number errors at serialize time, the
complete shell pass serializes. -/
theorem serialize_validation_witness :
    (∃ msg, ({ shellPass with serialNumber := "" } : Pass).serialize =
      .error (.validationError msg)) ∧
    shellPass.serialize = .ok shellPass.createPassJson :=
  ⟨(serialize_validation { shellPass with serialNumber := "" }).1 (Or.inl rfl),
   (serialize_validation shellPass).2 (by decide) (by decide) (by decide) (by decide)⟩

/-! ### C2, C8 -/

/-- C2: a pass whose barcode has format Code128 serializes with the legacy
singular "barcode" key downgraded to PDF417 while "barcodes"[0] keeps
Code128; a pass whose barcode has format PDF417 serializes with both equal
to PDF417. -/
theorem barcode_downgrade (p : Pass) (b : Barcode) (h : p.barcode = some b) :
    (b.format = .code128 →
      jsonString? ((p.json_dict.get? "barcode").bind (fun j => j.get? "format")) =
        some "PKBarcodeFormatPDF417" ∧
      jsonString? (((p.json_dict.get? "barcodes").bind (fun j => j.at? 0)).bind
        (fun j => j.get? "format")) = some "PKBarcodeFormatCode128") ∧
    (b.format = .pdf417 →
      jsonString? ((p.json_dict.get? "barcode").bind (fun j => j.get? "format")) =
        some "PKBarcodeFormatPDF417" ∧
      jsonString? (((p.json_dict.get? "barcodes").bind (fun j => j.at? 0)).bind
        (fun j => j.get? "format")) = some "PKBarcodeFormatPDF417") := by
  constructor <;> intro hf <;>
    simp [Pass.json_dict, Json.get?, Json.at?, barcodeEntries, h, legacyBarcode, hf,
          legacyFormats, Barcode.json_dict, BarcodeFormat.value, jsonString?, List.lookup]

/-- Witness for C2 at the shell pass (Code128 barcode). -/
theorem barcode_downgrade_witness :
    shellPass.barcode = some shellBarcode ∧
    ((shellBarcode.format = .code128 →
      jsonString? ((shellPass.json_dict.get? "barcode").bind (fun j => j.get? "format")) =
        some "PKBarcodeFormatPDF417" ∧
      jsonString? (((shellPass.json_dict.get? "barcodes").bind (fun j => j.at? 0)).bind
        (fun j => j.get? "format")) = some "PKBarcodeFormatCode128") ∧
    (shellBarcode.format = .pdf417 →
      jsonString? ((shellPass.json_dict.get? "barcode").bind (fun j => j.get? "format")) =
        some "PKBarcodeFormatPDF417" ∧
      jsonString? (((shellPass.json_dict.get? "barcodes").bind (fun j => j.at? 0)).bind
        (fun j => j.get? "format")) = some "PKBarcodeFormatPDF417")) :=
  ⟨rfl, barcode_downgrade shellPass shellBarcode rfl⟩

/-- C8: the shell pass scenario — formatVersion 1, suppressStripShine
false, the exact top-level string values, the primary field value, and a
one-entry manifest keyed "pass.json" when no assets are attached. -/
theorem shell_pass_scenario :
    jsonNum? (shellPass.json_dict.get? "formatVersion") = some 1 ∧
    jsonBool? (shellPass.json_dict.get? "suppressStripShine") = some false ∧
    jsonString? (shellPass.json_dict.get? "organizationName") = some "Org Name" ∧
    jsonString? (shellPass.json_dict.get? "passTypeIdentifier") = some "Pass Type ID" ∧
    jsonString? (shellPass.json_dict.get? "teamIdentifier") = some "Team Identifier" ∧
    jsonString? (shellPass.json_dict.get? "serialNumber") = some "1234567" ∧
    jsonString? (shellPass.json_dict.get? "description") = some "A Sample Pass" ∧
    jsonString? ((((shellPass.json_dict.get? "storeCard").bind
      (fun j => j.get? "primaryFields")).bind (fun j => j.at? 0)).bind
      (fun j => j.get? "value")) = some "Jähn Doe" ∧
    (buildManifest shellPass.createPassJson shellPass.files).map Prod.fst = ["pass.json"] ∧
    (buildManifest shellPass.createPassJson shellPass.files).length = 1 :=
  ⟨rfl, rfl, rfl, rfl, rfl, rfl, rfl, rfl, rfl, rfl⟩

/-! ### Asset-store lemmas for C6, C7 -/

/-- The replacing branch of `dictInsert` leaves the key sequence
unchanged. -/
lemma replace_map_fst (fs : List (String × List Nat)) (name : String) (c : List Nat) :
    (fs.map (fun a => if a.1 = name then (name, c) else a)).map Prod.fst = fs.map Prod.fst := by
  rw [List.map_map]
  apply List.map_congr_left
  intro a _
  by_cases ha : a.1 = name <;> simp [ha]

/-- `dictInsert` preserves key uniqueness. -/
lemma dictInsert_nodup (fs : List (String × List Nat)) (name : String) (c : List Nat)
    (h : (fs.map Prod.fst).Nodup) : ((dictInsert fs name c).map Prod.fst).Nodup := by
  unfold dictInsert
  split
  · rw [replace_map_fst]
    exact h
  · rename_i hany
    have hnot : name ∉ fs.map Prod.fst := by
      intro hmem
      obtain ⟨a, ha, hfst⟩ := List.mem_map.mp hmem
      exact hany (List.any_eq_true.mpr ⟨a, ha, by simp [hfst]⟩)
    rw [List.map_append]
    refine List.nodup_append.mpr ⟨h, by simp, ?_⟩
    intro a ha hb
    simp only [List.map_cons, List.map_nil, List.mem_singleton] at hb
    exact hnot (hb ▸ ha)

/-- After a replacing insert, the entries keyed `name` are exactly the one
just inserted (given unique keys). -/
lemma replace_filter (fs : List (String × List Nat)) (name : String) (c : List Nat)
    (h : (fs.map Prod.fst).Nodup)
    (hany : fs.any (fun a => decide (a.1 = name)) = true) :
    (fs.map (fun a => if a.1 = name then (name, c) else a)).filter
      (fun a => decide (a.1 = name)) = [(name, c)] := by
  induction fs with
  | nil => simp at hany
  | cons x rest ih =>
      rw [List.map_cons, List.nodup_cons] at h
      by_cases hx : x.1 = name
      · have hrest : ∀ a ∈ rest, ¬a.1 = name := by
          intro a ha hcontra
          exact h.1 (hx ▸ hcontra ▸ List.mem_map_of_mem Prod.fst ha)
        rw [List.map_cons, if_pos hx, List.filter_cons_of_pos (by simp)]
        have hnil : (rest.map (fun a => if a.1 = name then (name, c) else a)).filter
            (fun a => decide (a.1 = name)) = [] := by
          rw [List.filter_eq_nil_iff]
          intro a ha
          obtain ⟨a₀, ha₀, heq⟩ := List.mem_map.mp ha
          rw [if_neg (hrest a₀ ha₀)] at heq
          simpa [← heq] using hrest a₀ ha₀
        rw [hnil]
      · have hany' : rest.any (fun a => decide (a.1 = name)) = true := by
          simpa [hx] using hany
        rw [List.map_cons, if_neg hx, List.filter_cons_of_neg (by simp [hx])]
        exact ih h.2 hany'

/-- Filtering the store for a key after `dictInsert` of that key yields
exactly the inserted entry (given unique keys). -/
lemma dictInsert_filter (fs : List (String × List Nat)) (name : String) (c : List Nat)
    (h : (fs.map Prod.fst).Nodup) :
    (dictInsert fs name c).filter (fun a => decide (a.1 = name)) = [(name, c)] := by
  unfold dictInsert
  split
  · rename_i hany
    exact replace_filter fs name c h hany
  · rename_i hany
    have hnone : ∀ a ∈ fs, ¬a.1 = name := by
      intro a ha hcontra
      exact hany (List.any_eq_true.mpr ⟨a, ha, by simp [hcontra]⟩)
    rw [List.filter_append, List.filter_eq_nil_iff.mpr (by simpa using hnone),
        List.filter_cons_of_pos (by simp)]
    simp

/-- Looking the inserted key up after `dictInsert` returns the inserted
content. -/
lemma dictInsert_lookup (fs : List (String × List Nat)) (name : String) (c : List Nat) :
    List.lookup name (dictInsert fs name c) = some c := by
  unfold dictInsert
  split
  · rename_i hany
    induction fs with
    | nil => simp at hany
    | cons x rest ih =>
        by_cases hx : x.1 = name
        · rw [List.map_cons, if_pos hx, List.lookup]
          simp
        · have hany' : rest.any (fun a => decide (a.1 = name)) = true := by
            simpa [hx] using hany
          have hne : (name == x.1) = false := by
            simp
            exact fun hEq => hx hEq.symm
          rw [List.map_cons, if_neg hx, List.lookup, hne]
          exact ih hany'
  · induction fs with
    | nil => simp [List.lookup]
    | cons x rest ih =>
        rename_i hany
        have hx : ¬x.1 = name := by
          intro hcontra
          exact hany (List.any_eq_true.mpr ⟨x, by simp, by simp [hcontra]⟩)
        have hany' : ¬rest.any (fun a => decide (a.1 = name)) = true := by
          intro hcontra
          obtain ⟨a, ha, hfst⟩ := List.any_eq_true.mp hcontra
          exact hany (List.any_eq_true.mpr ⟨a, by simp [ha], hfst⟩)
        have hne : (name == x.1) = false := by
          simp
          exact fun hEq => hx hEq.symm
        rw [List.cons_append, List.lookup, hne]
        exact ih hany'

/-- The inserted entry is in the store after `dictInsert`. -/
lemma mem_dictInsert_self (fs : List (String × List Nat)) (name : String) (c : List Nat) :
    (name, c) ∈ dictInsert fs name c := by
  unfold dictInsert
  split
  · rename_i hany
    obtain ⟨a, ha, hfst⟩ := List.any_eq_true.mp hany
    have := List.mem_map_of_mem (fun a => if a.1 = name then (name, c) else a) ha
    simpa [show a.1 = name by simpa using hfst] using this
  · simp

/-- Entries keyed differently survive `dictInsert`. -/
lemma mem_dictInsert_of_ne (fs : List (String × List Nat)) (name : String) (c : List Nat)
    (a : String × List Nat) (ha : a ∈ fs) (hne : a.1 ≠ name) :
    a ∈ dictInsert fs name c := by
  unfold dictInsert
  split
  · have := List.mem_map_of_mem (fun x => if x.1 = name then (name, c) else x) ha
    simpa [hne] using this
  · exact List.mem_append_left _ ha

/-! ### C6, C7, C10 -/

/-- C6: adding twice under one name keeps exactly one store entry holding
the later bytes, and the manifest holds only the hash of the latest bytes
under that name. -/
theorem addFile_replaces (p : Pass) (name : String) (c₁ c₂ : List Nat) (passJson : String)
    (hnodup : (p.files.map Prod.fst).Nodup) :
    ((p.addFile name c₁).addFile name c₂).files.filter (fun a => a.1 = name) = [(name, c₂)] ∧
    List.lookup name ((p.addFile name c₁).addFile name c₂).files = some c₂ ∧
    (∀ v, (name, v) ∈ ((p.addFile name c₁).addFile name c₂).files.map
      (fun a => (a.1, sha1Hex a.2)) → v = sha1Hex c₂) ∧
    (name, sha1Hex c₂) ∈ buildManifest passJson ((p.addFile name c₁).addFile name c₂).files := by
  have h1 : ((p.addFile name c₁).addFile name c₂).files =
      dictInsert (dictInsert p.files name c₁) name c₂ := rfl
  have hnd : ((dictInsert p.files name c₁).map Prod.fst).Nodup :=
    dictInsert_nodup _ _ _ hnodup
  refine ⟨?_, ?_, ?_, ?_⟩
  · rw [h1]
    exact dictInsert_filter _ _ _ hnd
  · rw [h1]
    exact dictInsert_lookup _ _ _
  · intro v hv
    rw [h1] at hv
    obtain ⟨a, ha, heq⟩ := List.mem_map.mp hv
    have hk : a.1 = name := congrArg Prod.fst heq
    have hmem : a ∈ (dictInsert (dictInsert p.files name c₁) name c₂).filter
        (fun x => decide (x.1 = name)) :=
      List.mem_filter.mpr ⟨ha, by simp [hk]⟩
    rw [dictInsert_filter _ _ _ hnd] at hmem
    have ha2 : a.2 = c₂ := congrArg Prod.snd (List.mem_singleton.mp hmem)
    have hv2 : sha1Hex a.2 = v := congrArg Prod.snd heq
    rw [← hv2, ha2]
  · rw [h1]
    exact List.mem_cons_of_mem _
      (List.mem_map_of_mem _ (mem_dictInsert_self (dictInsert p.files name c₁) name c₂))

/-- Witness for C6 at a concrete double add. -/
theorem addFile_replaces_witness :
    (shellPass.files.map Prod.fst).Nodup ∧
    (((shellPass.addFile "icon.png" [0]).addFile "icon.png" [1]).files.filter
        (fun a => a.1 = "icon.png") = [("icon.png", [1])] ∧
      List.lookup "icon.png" ((shellPass.addFile "icon.png" [0]).addFile "icon.png" [1]).files =
        some [1] ∧
      (∀ v, ("icon.png", v) ∈ ((shellPass.addFile "icon.png" [0]).addFile "icon.png" [1]).files.map
        (fun a => (a.1, sha1Hex a.2)) → v = sha1Hex [1]) ∧
      ("icon.png", sha1Hex [1]) ∈
        buildManifest "x" ((shellPass.addFile "icon.png" [0]).addFile "icon.png" [1]).files) :=
  ⟨by simp [shellPass], addFile_replaces shellPass "icon.png" [0] [1] "x" (by simp [shellPass])⟩

/-- C7: the same bytes stored under two different names give two manifest
entries carrying the identical hash string. -/
theorem same_bytes_same_hash (p : Pass) (n₁ n₂ : String) (content : List Nat) (passJson : String)
    (hne : n₁ ≠ n₂) :
    (n₁, sha1Hex content) ∈
      buildManifest passJson ((p.addFile n₁ content).addFile n₂ content).files ∧
    (n₂, sha1Hex content) ∈
      buildManifest passJson ((p.addFile n₁ content).addFile n₂ content).files := by
  have h1 : ((p.addFile n₁ content).addFile n₂ content).files =
      dictInsert (dictInsert p.files n₁ content) n₂ content := rfl
  constructor
  · have m1 : (n₁, content) ∈ dictInsert p.files n₁ content := mem_dictInsert_self _ _ _
    have m2 : (n₁, content) ∈ dictInsert (dictInsert p.files n₁ content) n₂ content :=
      mem_dictInsert_of_ne _ _ _ _ m1 hne
    rw [h1]
    exact List.mem_cons_of_mem _ (List.mem_map_of_mem _ m2)
  · have m2 : (n₂, content) ∈ dictInsert (dictInsert p.files n₁ content) n₂ content :=
      mem_dictInsert_self _ _ _
    rw [h1]
    exact List.mem_cons_of_mem _ (List.mem_map_of_mem _ m2)

/-- Witness for C7 at concrete names and bytes. -/
theorem same_bytes_same_hash_witness :
    ("icon2.png" : String) ≠ "logo2.png" ∧
    (("icon2.png", sha1Hex [7]) ∈
        buildManifest "y" ((shellPass.addFile "icon2.png" [7]).addFile "logo2.png" [7]).files ∧
      ("logo2.png", sha1Hex [7]) ∈
        buildManifest "y" ((shellPass.addFile "icon2.png" [7]).addFile "logo2.png" [7]).files) :=
  ⟨by decide, same_bytes_same_hash shellPass "icon2.png" "logo2.png" [7] "y" (by decide)⟩

/-- C10: every manifest entry is the SHA-1 digest of the entry's exact
bytes (the pass JSON for "pass.json", the asset bytes otherwise), rendered
as a 40-character lowercase hexadecimal string, depending only on the
bytes. -/
theorem manifest_hash_spec (passJson : String) (assets : List (String × List Nat)) (k v : String)
    (h : (k, v) ∈ buildManifest passJson assets) :
    ((k = "pass.json" ∧ v = sha1Hex (utf8Bytes passJson)) ∨
      ∃ b, (k, b) ∈ assets ∧ v = sha1Hex b) ∧
    v.length = 40 ∧ (∀ c ∈ v.toList, c ∈ hexChars) := by
  have hcase : (k = "pass.json" ∧ v = sha1Hex (utf8Bytes passJson)) ∨
      ∃ b, (k, b) ∈ assets ∧ v = sha1Hex b := by
    rcases List.mem_cons.mp h with h0 | h1
    · exact Or.inl ⟨congrArg Prod.fst h0, congrArg Prod.snd h0⟩
    · obtain ⟨a, ha, heq⟩ := List.mem_map.mp h1
      have hk : a.1 = k := congrArg Prod.fst heq
      have hv : sha1Hex a.2 = v := congrArg Prod.snd heq
      exact Or.inr ⟨a.2, by rw [← hk]; simpa using ha, hv.symm⟩
  refine ⟨hcase, ?_, ?_⟩
  · rcases hcase with ⟨_, hv⟩ | ⟨b, _, hv⟩ <;> rw [hv] <;> exact sha1Hex_length _
  · rcases hcase with ⟨_, hv⟩ | ⟨b, _, hv⟩ <;> rw [hv] <;> exact sha1Hex_chars _

/-- Witness for C10 at the pass.json entry of an assetless manifest. -/
theorem manifest_hash_spec_witness :
    ("pass.json", sha1Hex (utf8Bytes "x")) ∈ buildManifest "x" [] ∧
    (((("pass.json" : String) = "pass.json" ∧
        sha1Hex (utf8Bytes "x") = sha1Hex (utf8Bytes "x")) ∨
      ∃ b, ("pass.json", b) ∈ ([] : List (String × List Nat)) ∧
        sha1Hex (utf8Bytes "x") = sha1Hex b) ∧
    (sha1Hex (utf8Bytes "x")).length = 40 ∧
    (∀ c ∈ (sha1Hex (utf8Bytes "x")).toList, c ∈ hexChars)) :=
  ⟨List.mem_cons_self _ _,
   manifest_hash_spec "x" [] "pass.json" (sha1Hex (utf8Bytes "x")) (List.mem_cons_self _ _)⟩

end Passbook
